import Mathlib

/-!
Verification development for the HoloEngineRuntime renderer.

The JavaScript source is shallowly embedded in Lean 4:

* JS `number` arithmetic is modelled exactly over `ℚ` (for the depth-sort
  worker, whose relevant computations are exact in IEEE doubles on all inputs
  used in concrete theorems) and over `ℝ` (for the camera, which uses
  transcendental functions).
* JS typed arrays (`Uint32Array`, `Int32Array`) are modelled as total
  functions `ℕ → ℕ` / index lists together with a bounds-guarded write
  (`aset`): writing at an out-of-range index is a no-op, which is exactly the
  ECMAScript semantics of integer-indexed exotic objects, and elements are
  zero-initialised, which matches `aget`'s default value `0`.
* `x | 0` is `toInt32 (jsTrunc x)`: truncation toward zero followed by
  wrap-around into signed 32-bit range.
* The worker's message handler and `setTimeout` throttling are modelled as a
  state machine with an explicit queue of scheduled timer callbacks; message
  identity of a posted view matrix (JS `!==` on the array object) is modelled
  by tagging each view with a numeric identity.
-/

namespace Holo

/-! ## JS numeric primitives -/

/-- Truncation toward zero of a rational, as in ECMAScript `ToInt32`'s first
step (the fractional part is discarded): floor for nonnegative values,
ceiling for negative ones. -/
def jsTrunc (q : ℚ) : ℤ :=
  if q < 0 then Int.ceil q else Int.floor q

/-- Wrap an integer into the signed 32-bit range, as in ECMAScript `x | 0`. -/
def toInt32 (n : ℤ) : ℤ :=
  (n + 2 ^ 31) % 2 ^ 32 - 2 ^ 31

/-! ## Typed arrays as guarded functions

`aset f i v bound` models `arr[i] = v` on a typed array of length `bound`:
out-of-range writes are silently ignored.  Reads are total with default 0
(typed arrays are zero-initialised; every in-range read in the modelled code
paths is of a previously written or zero-initialised slot). -/

def aset (f : ℕ → ℕ) (i v bound : ℕ) : ℕ → ℕ :=
  fun j => if j = i ∧ i < bound then v else f j

/-! ## Depth-sort worker: data -/

/-- The worker's sort strategy strings `'none' | 'front-to-back' | 'back-to-front'`. -/
inductive SortStrategy where
  | sNone
  | frontToBack
  | backToFront
deriving DecidableEq, Repr

/-- A view-projection matrix message payload: the 16 `Float32` entries plus a
numeric identity modelling JS object identity of the posted array (each
`postMessage({view})` delivers a fresh array object, compared by `!==` in the
worker's throttling check). -/
structure VP where
  ident : ℕ
  mat : List ℚ
deriving DecidableEq, Repr

/-- A `{depthIndex, viewProj, vertexCount}` message posted from the worker to
the host. -/
structure SortResult where
  depthIndex : List ℕ
  viewProj : VP
  vertexCount : ℕ
deriving DecidableEq, Repr

/-! ## Depth-sort worker: `runSort` (src/src/utils/depthWorker.js 15-85)

The body of `runSort` is decomposed loop-by-loop into named definitions; each
definition is one `for` loop (or one straight-line block) of the source. -/

/-- One iteration `((viewProj[2]*positions[3i] + viewProj[6]*positions[3i+1] +
viewProj[10]*positions[3i+2]) * 4096) | 0` of the depth-key loop
(depthWorker.js 36-42). -/
def depthKey (vpMat positions : List ℚ) (i : ℕ) : ℤ :=
  toInt32 (jsTrunc ((vpMat.getD 2 0 * positions.getD (3 * i) 0
    + vpMat.getD 6 0 * positions.getD (3 * i + 1) 0
    + vpMat.getD 10 0 * positions.getD (3 * i + 2) 0) * 4096))

/-- `if (depth > maxDepth) maxDepth = depth`, folded from the initial
`-Infinity` (modelled as `Option.none`). -/
def omax (a : Option ℤ) (d : ℤ) : Option ℤ :=
  match a with
  | none => some d
  | some m => some (max m d)

/-- `if (depth < minDepth) minDepth = depth`, folded from the initial
`Infinity` (modelled as `Option.none`). -/
def omin (a : Option ℤ) (d : ℤ) : Option ℤ :=
  match a with
  | none => some d
  | some m => some (min m d)

/-- `depthInv = (256 * 256) / (maxDepth - minDepth)` (depthWorker.js 52).
When `maxDepth = minDepth` the JS value is `Infinity` and every later product
`0 * Infinity = NaN` becomes bucket `(NaN | 0) = 0`; rational division by zero
yields `0` and `0 * 0 = 0` gives the same bucket `0`, so the model agrees.
The `Option.none` case is unreachable for a nonempty point set. -/
def depthInv (maxD minD : Option ℤ) : ℚ :=
  match maxD, minD with
  | some M, some m => (65536 : ℚ) / ((M : ℚ) - (m : ℚ))
  | _, _ => 0

/-- `sizeList[i] = ((sizeList[i] - minDepth) * depthInv) | 0`
(depthWorker.js 55). -/
def bucketOf (minD : Option ℤ) (dInv : ℚ) (d : ℤ) : ℤ :=
  match minD with
  | some m => toInt32 (jsTrunc (((d : ℤ) - m : ℤ) * dInv))
  | none => 0

/-- The tally loop `counts0[sizeList[i]]++` (depthWorker.js 53-57) over the
bucket list.  A write at a bucket outside `[0, 65536)` is ignored (JS typed
array out-of-range write). -/
def countsOf (buckets : List ℤ) : ℕ → ℕ :=
  buckets.foldl
    (fun f b =>
      if 0 ≤ b ∧ b < 65536 then aset f b.toNat (f b.toNat + 1) 65536 else f)
    (fun _ => 0)

/-- The ascending prefix-sum loop (depthWorker.js 61-65):
`for (i = 0; i < 256*256; i++) { starts0[i] = total; total += counts0[i] }`,
with explicit fuel `k` (number of remaining iterations), current index `i`,
accumulator `total` and the array being written. -/
def startsLoopFTB (counts : ℕ → ℕ) : ℕ → ℕ → ℕ → (ℕ → ℕ) → (ℕ → ℕ)
  | 0, _i, _total, s => s
  | k + 1, i, total, s =>
      startsLoopFTB counts k (i + 1) (total + counts i) (aset s i total 65536)

/-- The descending prefix-sum loop (depthWorker.js 66-71):
`for (i = 256*256 - 1; i >= 0; i--) { starts0[i] = total; total += counts0[i] }`. -/
def startsLoopBTF (counts : ℕ → ℕ) : ℕ → ℕ → ℕ → (ℕ → ℕ) → (ℕ → ℕ)
  | 0, _i, _total, s => s
  | k + 1, i, total, s =>
      startsLoopBTF counts k (i - 1) (total + counts i) (aset s i total 65536)

/-- `starts0` after the front-to-back branch. -/
def startsFTB (counts : ℕ → ℕ) : ℕ → ℕ :=
  startsLoopFTB counts 65536 0 0 (fun _ => 0)

/-- `starts0` after the back-to-front branch. -/
def startsBTF (counts : ℕ → ℕ) : ℕ → ℕ :=
  startsLoopBTF counts 65536 65535 0 (fun _ => 0)

/-- The scatter loop (depthWorker.js 73-77):
`depthIndex[starts0[bucket]++] = i` for each point `i` in order.  When the
bucket is out of `[0, 65536)`, `starts0[bucket]` is `undefined` in JS, and
both the `depthIndex[undefined] = i` write and the `starts0[bucket]++` write
are without effect on the array contents, so the iteration is a no-op.
Arguments: remaining bucket list, current point index `i`, the mutable
`starts0`, the mutable `depthIndex`, and `n` the `depthIndex` length. -/
def scatterLoop (n : ℕ) :
    List ℤ → ℕ → (ℕ → ℕ) → (ℕ → ℕ) → ((ℕ → ℕ) × (ℕ → ℕ))
  | [], _i, starts, d => (starts, d)
  | b :: rest, i, starts, d =>
      if 0 ≤ b ∧ b < 65536 then
        scatterLoop n rest (i + 1)
          (aset starts b.toNat (starts b.toNat + 1) 65536)
          (aset d (starts b.toNat) i n)
      else
        scatterLoop n rest (i + 1) starts d

/-- Squared Euclidean distance between the camera-Z rows (entries 2, 6, 10)
of two matrices.  The source compares `Math.hypot(...) < 0.01`
(depthWorker.js 20-21); for nonnegative arguments this is equivalent to
comparing the squared distance with `(1/100)^2 = 1/10000`, which keeps the
model inside `ℚ`. -/
def skipDist2 (lpMat vMat : List ℚ) : ℚ :=
  (lpMat.getD 2 0 - vMat.getD 2 0) * (lpMat.getD 2 0 - vMat.getD 2 0)
    + (lpMat.getD 6 0 - vMat.getD 6 0) * (lpMat.getD 6 0 - vMat.getD 6 0)
    + (lpMat.getD 10 0 - vMat.getD 10 0) * (lpMat.getD 10 0 - vMat.getD 10 0)

/-- A callback scheduled with `setTimeout(..., 0)`: either the throttling
callback of `throttledSort` (which captured `lastView`, depthWorker.js 92-95)
or the plain `sortRunning = false` callback of the strategy handler
(depthWorker.js 129). -/
inductive TimerCb where
  | throttleCb (lastView : VP)
  | strategyCb
deriving DecidableEq, Repr

/-- The worker's module-level variables (depthWorker.js 5-13) together with
the queue of scheduled timer callbacks.  `vertexCount` starts at 0 in the
model (JS: `undefined`); the difference is unobservable because every code
path reading `vertexCount` is guarded by `positions` being set, and the
`texture` handler that sets `positions` always assigns `vertexCount`. -/
structure WState where
  lastProj : Option VP
  positions : Option (List ℚ)
  viewProj : Option VP
  vertexCount : ℕ
  lastVertexCount : ℕ
  sortRunning : Bool
  sortStrategy : SortStrategy
  lastSortStrategy : SortStrategy
  timers : List TimerCb
deriving DecidableEq, Repr

/-- Observable output of one synchronous step of worker execution:
messages posted to the host, the arguments of the `runSort` invocations that
occurred, and how many of those invocations actually computed a sort (did not
take an early `return`). -/
structure StepOut where
  posts : List SortResult
  calls : List VP
  computed : ℕ
deriving DecidableEq, Repr

def StepOut.nil : StepOut := ⟨[], [], 0⟩

/-- The sort computation proper (depthWorker.js 33-85): everything after the
skip checks.  Returns the updated variables, the posted message and
`true` (= the computation ran). -/
def sortCore (st : WState) (pos : List ℚ) (vp : VP) :
    WState × List SortResult × Bool :=
  let n := st.vertexCount
  let keys := (List.range n).map (depthKey vp.mat pos)
  let maxD := keys.foldl omax none
  let minD := keys.foldl omin none
  if st.sortStrategy = SortStrategy.sNone then
    -- strategy 'none': post the identity permutation (depthWorker.js 44-50)
    ({ st with lastProj := some vp }, [⟨List.range n, vp, n⟩], true)
  else
    let dInv := depthInv maxD minD
    let buckets := keys.map (bucketOf minD dInv)
    let counts := countsOf buckets
    let starts :=
      match st.sortStrategy with
      | SortStrategy.frontToBack => startsFTB counts
      | SortStrategy.backToFront => startsBTF counts
      | SortStrategy.sNone => fun _ => 0   -- unreachable in this branch
    let res := scatterLoop n buckets 0 starts (fun _ => 0)
    ({ st with lastProj := some vp, lastSortStrategy := st.sortStrategy },
      [⟨(List.range n).map res.2, vp, n⟩], true)

/-- The `else` block of the skip check (depthWorker.js 25-31): record the new
strategy (when it changed or the sort was forced) and the new vertex count. -/
def runSortUpd (st : WState) (strategyChanged forceSort : Bool) : WState :=
  let st1 :=
    if strategyChanged || forceSort then
      { st with lastSortStrategy := st.sortStrategy }
    else st
  if st1.lastVertexCount ≠ st1.vertexCount then
    { st1 with lastVertexCount := st1.vertexCount }
  else st1

/-- `runSort(viewProj, forceSort)` (depthWorker.js 15-85).  The `viewProj`
argument is non-null at every call site, so the `if (!viewProj) return` guard
needs no model.  Returns (updated variables, posted messages, whether the
sort computation ran). -/
def runSort (st : WState) (vp : VP) (forceSort : Bool) :
    WState × List SortResult × Bool :=
  match st.positions with
  | none => (st, [], false)      -- `if (!positions) return`
  | some pos =>
    let strategyChanged : Bool := st.lastSortStrategy ≠ st.sortStrategy
    match st.lastProj with
    | some lp =>
      if !forceSort && !strategyChanged
          && (st.lastVertexCount = st.vertexCount : Bool) then
        if skipDist2 lp.mat vp.mat < 1 / 10000 then
          (st, [], false)        -- skip: view matrix barely changed
        else
          sortCore st pos vp
      else
        sortCore (runSortUpd st strategyChanged forceSort) pos vp
    | none =>
      sortCore (runSortUpd st strategyChanged forceSort) pos vp

/-- `throttledSort` (depthWorker.js 87-97): when no sort is running and both
a view and positions exist, mark a sort as running, run it synchronously, and
schedule the timeout callback that will clear `sortRunning` and re-check. -/
def throttledSort (st : WState) : WState × StepOut :=
  if !st.sortRunning && st.viewProj.isSome && st.positions.isSome then
    match st.viewProj with
    | some lastView =>
      let st1 := { st with sortRunning := true }
      let r := runSort st1 lastView false
      ({ r.1 with timers := r.1.timers ++ [TimerCb.throttleCb lastView] },
        ⟨r.2.1, [lastView], if r.2.2 then 1 else 0⟩)
    | none => (st, StepOut.nil)
  else (st, StepOut.nil)

/-- Host-to-worker messages (depthWorker.js 99-140).  `texture` carries the
decoded `Float32Array` and the optional explicit vertex count (`remaining` is
always 0 at both call sites); a `{vertexCount: 0}` message is falsy in JS and
falls through every branch, hence the guard in its handler. -/
inductive HostMsg where
  | texture (tex : List ℚ) (vc : Option ℕ)
  | setVertexCount (vc : ℕ)
  | setDebugLogs (b : Bool)
  | strategy (s : SortStrategy)
  | view (v : VP)
deriving Repr

/-- `positions[3i+k] = texture[16i+k]` for `k < 3` (depthWorker.js 107-112). -/
def extractPositions (tex : List ℚ) (n : ℕ) : List ℚ :=
  List.flatten ((List.range n).map fun i =>
    [tex.getD (16 * i) 0, tex.getD (16 * i + 1) 0, tex.getD (16 * i + 2) 0])

/-- The worker's `onmessage` handler (depthWorker.js 99-140). -/
def onMessage (st : WState) (m : HostMsg) : WState × StepOut :=
  match m with
  | .texture tex vc =>
    let n :=
      match vc with
      | some n => n
      | none => tex.length / 16   -- Math.floor((byteLength - 0) / 4 / 16)
    ({ st with vertexCount := n, positions := some (extractPositions tex n) },
      StepOut.nil)
  | .setVertexCount vc =>
    if vc ≠ 0 then ({ st with vertexCount := vc }, StepOut.nil)
    else (st, StepOut.nil)
  | .setDebugLogs _ => (st, StepOut.nil)
  | .strategy s =>
    let oldStrategy := st.sortStrategy
    let st1 := { st with sortStrategy := s }
    if st1.viewProj.isSome && st1.positions.isSome then
      if !st1.sortRunning then
        let st2 :=
          { st1 with sortRunning := true, lastSortStrategy := oldStrategy }
        match st2.viewProj with
        | some v =>
          let r := runSort st2 v true
          ({ r.1 with timers := r.1.timers ++ [TimerCb.strategyCb] },
            ⟨r.2.1, [v], if r.2.2 then 1 else 0⟩)
        | none => (st1, StepOut.nil)
      else ({ st1 with lastSortStrategy := oldStrategy }, StepOut.nil)
    else ({ st1 with lastSortStrategy := oldStrategy }, StepOut.nil)
  | .view v => throttledSort { st with viewProj := some v }

/-- One `setTimeout` callback firing (oldest first).  The throttle callback
(depthWorker.js 92-95) clears `sortRunning` and, when the view object posted
since differs (JS `!==`, modelled by the `ident` tag) and data is loaded,
re-enters `throttledSort`; the strategy callback (line 129) only clears
`sortRunning`. -/
def fireTimer (st : WState) : WState × StepOut :=
  match st.timers with
  | [] => (st, StepOut.nil)
  | cb :: rest =>
    match cb with
    | .strategyCb =>
      ({ st with timers := rest, sortRunning := false }, StepOut.nil)
    | .throttleCb lastView =>
      let st2 := { st with timers := rest, sortRunning := false }
      match st2.viewProj with
      | some v =>
        if lastView ≠ v ∧ st2.positions.isSome = true then throttledSort st2
        else (st2, StepOut.nil)
      | none => (st2, StepOut.nil)

/-- An event of the worker's event loop: a host message arriving, or a
scheduled timer firing. -/
inductive WEvent where
  | msg (m : HostMsg)
  | timer

def stepEv (st : WState) (e : WEvent) : WState × StepOut :=
  match e with
  | .msg m => onMessage st m
  | .timer => fireTimer st

/-- The worker's state right after `createWorker` runs (depthWorker.js 4-13). -/
def initState : WState :=
  ⟨none, none, none, 0, 0, false, SortStrategy.backToFront,
    SortStrategy.backToFront, []⟩

/-- States reachable from the initial worker state by any interleaving of
host messages and timer firings. -/
inductive Reachable : WState → Prop where
  | init : Reachable initState
  | step : ∀ {st : WState} (e : WEvent), Reachable st → Reachable (stepEv st e).1

/-! ## Camera (src/unnamed/part_001)

JS `number` arithmetic is idealised as exact real arithmetic; `Math.PI` is
`Real.pi`, `Math.hypot` is the Euclidean norm, threshold constants `1e-6`,
`0.01`, `0.9` are the rationals `1/1000000`, `1/100`, `9/10`. -/

structure Vec3 where
  x : ℝ
  y : ℝ
  z : ℝ

/-- A 3x3 matrix given by its rows, as returned by
`_buildRotationFromYawPitch` (part_001 387-391). -/
structure Mat3 where
  r0 : Vec3
  r1 : Vec3
  r2 : Vec3

def dot3 (a b : Vec3) : ℝ :=
  a.x * b.x + a.y * b.y + a.z * b.z

def cross3 (a b : Vec3) : Vec3 :=
  ⟨a.y * b.z - a.z * b.y, a.z * b.x - a.x * b.z, a.x * b.y - a.y * b.x⟩

/-- `Math.hypot(v[0], v[1], v[2])`. -/
noncomputable def norm3 (v : Vec3) : ℝ :=
  Real.sqrt (v.x ^ 2 + v.y ^ 2 + v.z ^ 2)

/-- The guarded normalisation used throughout part_001 (330-333 and 398-401):
`len > 1e-6 ? v / len : [0, 1, 0]`. -/
noncomputable def normalize3 (v : Vec3) : Vec3 :=
  let len := norm3 v
  if len > 1 / 1000000 then ⟨v.x / len, v.y / len, v.z / len⟩ else ⟨0, 1, 0⟩

/-- Rodrigues' rotation of `v` about `axis` by `rad` (part_001 343-354). -/
noncomputable def rotateAroundAxis (v axis : Vec3) (rad : ℝ) : Vec3 :=
  let u := normalize3 axis
  let c := Real.cos rad
  let s := Real.sin rad
  let dotVal := dot3 v u
  ⟨v.x * c + (u.y * v.z - u.z * v.y) * s + u.x * dotVal * (1 - c),
   v.y * c + (u.z * v.x - u.x * v.z) * s + u.y * dotVal * (1 - c),
   v.z * c + (u.x * v.y - u.y * v.x) * s + u.z * dotVal * (1 - c)⟩

/-- `_buildRotationFromYawPitch(yawRad, pitchRad, worldUp,
forwardHorizontalRef)` (part_001 329-392). -/
noncomputable def buildRotationFromYawPitch (yawRad pitchRad : ℝ)
    (worldUp forwardHorizontalRef : Vec3) : Mat3 :=
  let forwardHorizontalNorm := normalize3 forwardHorizontalRef
  let rotatedHorizontalNorm :=
    if |yawRad| > 1 / 1000000 then
      normalize3 (rotateAroundAxis forwardHorizontalNorm worldUp yawRad)
    else forwardHorizontalNorm
  let cosPitch := Real.cos pitchRad
  let sinPitch := Real.sin pitchRad
  let forward := normalize3
    ⟨rotatedHorizontalNorm.x * cosPitch + worldUp.x * sinPitch,
     rotatedHorizontalNorm.y * cosPitch + worldUp.y * sinPitch,
     rotatedHorizontalNorm.z * cosPitch + worldUp.z * sinPitch⟩
  let right0 := cross3 worldUp forward
  let rightLen := norm3 right0
  let right :=
    if rightLen < 1 / 1000000 then
      if |dot3 forward ⟨1, 0, 0⟩| < 9 / 10 then
        normalize3 (cross3 worldUp ⟨1, 0, 0⟩)
      else normalize3 (cross3 worldUp ⟨0, 1, 0⟩)
    else normalize3 right0
  let up := normalize3 (cross3 forward right)
  ⟨⟨right.x, up.x, forward.x⟩,
   ⟨right.y, up.y, forward.y⟩,
   ⟨right.z, up.z, forward.z⟩⟩

/-- The pitch clamp `Math.max(-Math.PI/2 + 0.01, Math.min(Math.PI/2 - 0.01,
v))` used by the `pitchRad` setter and by `rotate` (part_001 88, 422-425). -/
noncomputable def clampPitch (v : ℝ) : ℝ :=
  max (-(Real.pi / 2) + 1 / 100) (min (Real.pi / 2 - 1 / 100) v)

/-- The camera's stored fields (part_001 31-57).  `fx0`, `fy0` are the
private `_fx`, `_fy`; the cached derived matrices are omitted because every
getter recomputes them purely from these fields. -/
structure Camera where
  position : Vec3
  yawRad : ℝ
  pitchRad : ℝ
  forwardHorizontalRef : Vec3
  worldUp : Vec3
  fx0 : ℝ
  fy0 : ℝ
  width : ℝ
  height : ℝ
  targetVerticalFOV : Option ℝ
  znear : ℝ
  zfar : ℝ

/-- Constructor options; a `none` field means the option was absent and the
constructor default applies. -/
structure CameraOptions where
  position : Option Vec3
  yawRad : Option ℝ
  pitchRad : Option ℝ
  forwardHorizontalRef : Option Vec3
  worldUp : Option Vec3
  fx : Option ℝ
  fy : Option ℝ
  width : Option ℝ
  height : Option ℝ
  targetVerticalFOV : Option ℝ
  znear : Option ℝ
  zfar : Option ℝ

def CameraOptions.empty : CameraOptions :=
  ⟨none, none, none, none, none, none, none, none, none, none, none, none⟩

/-- `new Camera(options)` (part_001 31-57).  Note that the constructor stores
`options.pitchRad ?? 0` without clamping. -/
noncomputable def Camera.ofOptions (o : CameraOptions) : Camera :=
  { position := o.position.getD ⟨0, 0, 0⟩
    yawRad := o.yawRad.getD 0
    pitchRad := o.pitchRad.getD 0
    forwardHorizontalRef := o.forwardHorizontalRef.getD ⟨0, 0, 1⟩
    worldUp := o.worldUp.getD ⟨0, 1, 0⟩
    fx0 := o.fx.getD 1000
    fy0 := o.fy.getD 1000
    width := o.width.getD 1920
    height := o.height.getD 1080
    targetVerticalFOV := o.targetVerticalFOV
    znear := o.znear.getD (1 / 5)
    zfar := o.zfar.getD 200 }

/-- The `fx` getter (part_001 118-127): when `targetVerticalFOV` is set and
`height > 0`, derive `fx` from the vertical FOV via the aspect ratio. -/
noncomputable def Camera.fx (c : Camera) : ℝ :=
  match c.targetVerticalFOV with
  | some fov =>
    if c.height > 0 then
      let aspectRatio := c.width / c.height
      let verticalFOVRad := fov * Real.pi / 180
      let horizontalFOVRad :=
        2 * Real.arctan (Real.tan (verticalFOVRad / 2) * aspectRatio)
      c.width / (2 * Real.tan (horizontalFOVRad / 2))
    else c.fx0
  | none => c.fx0

/-- The `fy` getter (part_001 135-142). -/
noncomputable def Camera.fy (c : Camera) : ℝ :=
  match c.targetVerticalFOV with
  | some fov =>
    if c.height > 0 then
      let verticalFOVRad := fov * Real.pi / 180
      c.height / (2 * Real.tan (verticalFOVRad / 2))
    else c.fy0
  | none => c.fy0

/-- The `fx` setter (part_001 129-133): store the value and clear the FOV. -/
def Camera.setFx (c : Camera) (v : ℝ) : Camera :=
  { c with fx0 := v, targetVerticalFOV := none }

/-- The `fy` setter (part_001 144-148). -/
def Camera.setFy (c : Camera) (v : ℝ) : Camera :=
  { c with fy0 := v, targetVerticalFOV := none }

/-- The `targetVerticalFOV` setter (part_001 172-175): stores the value; the
stored `_fx`/`_fy` are not touched. -/
def Camera.setTargetVerticalFOV (c : Camera) (v : Option ℝ) : Camera :=
  { c with targetVerticalFOV := v }

/-- The `pitchRad` setter (part_001 86-90), which clamps. -/
noncomputable def Camera.setPitchRad (c : Camera) (v : ℝ) : Camera :=
  { c with pitchRad := clampPitch v }

/-- `rotate(dYaw, dPitch)` (part_001 420-427). -/
noncomputable def Camera.rotate (c : Camera) (dYaw dPitch : ℝ) : Camera :=
  { c with
    yawRad := c.yawRad + dYaw
    pitchRad := clampPitch (c.pitchRad + dPitch) }

/-- The `rotation` getter (part_001 209-223), sans cache. -/
noncomputable def Camera.rotation (c : Camera) : Mat3 :=
  buildRotationFromYawPitch c.yawRad c.pitchRad c.worldUp c.forwardHorizontalRef

/-- A sequence of `rotate` calls applied in order. -/
noncomputable def applyRotates (c : Camera) (ops : List (ℝ × ℝ)) : Camera :=
  ops.foldl (fun cam op => cam.rotate op.1 op.2) c

/-! ## Render pipeline (src/unnamed/part_002)

The pipeline's GL calls are embedded as a trace of commands.  Pure uniform
uploads that have no effect on later control flow (projection/view matrices,
viewport, focal, time, thresholds, vertex-attribute setup) are elided; every
command that changes GL state consulted by the claims (depth/stencil/blend
configuration, program binding, the `depthWriteOnly` uniform), every draw
call, every worker message and every error log is kept.  A GPU error raised
by a draw call is modelled by an oracle `fails : ℕ → Bool` indexed by object
id. -/

inductive BlendFactor where
  | one
  | oneMinusSrcAlpha
deriving DecidableEq, Repr

inductive BlendEq where
  | funcAdd
deriving DecidableEq, Repr

inductive Cap where
  | depthTest
  | stencilTest
  | blend
deriving DecidableEq, Repr

inductive Cmd where
  | enable (c : Cap)
  | disable (c : Cap)
  | depthFuncLEqual
  | depthMask (b : Bool)
  | stencilOpKeepKeepReplace
  | stencilFunc (ref : ℕ)
  | stencilMask
  | blendFuncSeparate (srcRGB dstRGB srcA dstA : BlendFactor)
  | blendEquationSeparate (rgb a : BlendEq)
  | useProgram (p : ℕ)
  | setDepthWriteOnly (v : ℤ)
  | postStrategy (objId : ℕ) (s : SortStrategy)
  | updateWorker (objId : ℕ)
  | bindObjTexture (objId : ℕ)
  | drawSplat (objId : ℕ)
  | drawMesh (objId : ℕ)
  | drawLines (objId : ℕ)
  | logError (objId : ℕ)
deriving DecidableEq, Repr

/-- A splat (4DGS/3DGS) renderable object, reduced to the fields the modelled
control flow reads: `obj.worker` truthiness, `obj.sortStrategy` (`null` both
falls back to `'back-to-front'`), and `obj.isReady()`. -/
structure GSObject where
  id : ℕ
  hasWorker : Bool
  strategyOpt : Option SortStrategy
  ready : Bool
deriving DecidableEq, Repr

/-- A mesh or lines renderable object. -/
structure SceneObject where
  id : ℕ
  ready : Bool
deriving DecidableEq, Repr

def splatProgramId : ℕ := 1
def splat3DGSProgramId : ℕ := 2
def meshProgramId : ℕ := 3
def linesProgramId : ℕ := 4

/-- `_renderSplat` (part_002 815-878).  The worker-update block runs when the
`onUpdateWorker` callback was given and the object has a worker; the matrix
validity test `viewProj && Array.isArray(viewProj) && viewProj.length >= 16`
always holds because `multiply4` of 4x4 matrices yields a 16-entry array.
The draw itself is inside `try { ... } catch`, so a GPU error is logged with
the object id and swallowed. -/
def renderSplat (upd : Bool) (fails : ℕ → Bool) (obj : GSObject) : List Cmd :=
  (if upd && obj.hasWorker then
    [Cmd.postStrategy obj.id (obj.strategyOpt.getD SortStrategy.backToFront),
     Cmd.updateWorker obj.id]
  else [])
  ++
  (if !obj.ready then []
   else if fails obj.id then [Cmd.bindObjTexture obj.id, Cmd.logError obj.id]
   else [Cmd.bindObjTexture obj.id, Cmd.drawSplat obj.id])

/-- The state setup at the top of `_renderGSObjects` (part_002 704-726). -/
def gsPrelude (prog : ℕ) : List Cmd :=
  [Cmd.enable Cap.depthTest, Cmd.depthFuncLEqual, Cmd.depthMask true,
   Cmd.enable Cap.stencilTest, Cmd.stencilOpKeepKeepReplace,
   Cmd.enable Cap.blend,
   Cmd.blendFuncSeparate BlendFactor.one BlendFactor.oneMinusSrcAlpha
     BlendFactor.one BlendFactor.oneMinusSrcAlpha,
   Cmd.blendEquationSeparate BlendEq.funcAdd BlendEq.funcAdd,
   Cmd.useProgram prog]

/-- The per-object body of the loop in `_renderGSObjects` (part_002 768-808).
The source's `i === 0` branch and its `else` branch are textually identical,
so a single block models both.  `hasDWO` is whether the shader exposes the
`depthWriteOnly` uniform location. -/
def gsObjectBlock (upd : Bool) (fails : ℕ → Bool) (hasDWO : Bool) (i : ℕ)
    (obj : GSObject) : List Cmd :=
  [Cmd.stencilFunc (i + 1), Cmd.stencilMask,
   Cmd.enable Cap.depthTest, Cmd.depthMask true]
  ++ (if hasDWO then [Cmd.setDepthWriteOnly 0] else [])
  ++ [Cmd.depthFuncLEqual, Cmd.depthMask false]
  ++ renderSplat upd fails obj
  ++ (if hasDWO then [Cmd.setDepthWriteOnly 1] else [])
  ++ [Cmd.depthFuncLEqual, Cmd.depthMask true]
  ++ renderSplat upd fails obj

/-- `_renderGSObjects` (part_002 701-809). -/
def renderGSObjects (prog : ℕ) (upd : Bool) (fails : ℕ → Bool) (hasDWO : Bool)
    (objs : List GSObject) : List Cmd :=
  gsPrelude prog
    ++ objs.enum.flatMap (fun p => gsObjectBlock upd fails hasDWO p.1 p.2)

/-- `_renderMesh` (part_002 884-962): the draw is inside `try/catch`, so a
GPU error is logged with the object id and swallowed. -/
def renderMesh (fails : ℕ → Bool) (obj : SceneObject) : List Cmd :=
  if !obj.ready then []
  else if fails obj.id then [Cmd.logError obj.id]
  else [Cmd.drawMesh obj.id]

/-- The mesh-pass setup in `render` (part_002 566-570). -/
def meshPrelude (prog : ℕ) : List Cmd :=
  [Cmd.enable Cap.depthTest, Cmd.disable Cap.blend, Cmd.useProgram prog]

/-- The loop of `_renderLines` (part_002 988-1002).  There is no `try/catch`
anywhere in `_renderLines` or around its call site in `render`, so a GPU
error raised by `gl.drawArrays` propagates; the `Except.error` carries the
offending object id and the commands already executed. -/
def renderLinesLoop (fails : ℕ → Bool) :
    List SceneObject → List Cmd → Except (ℕ × List Cmd) (List Cmd)
  | [], acc => Except.ok acc
  | o :: rest, acc =>
    if !o.ready then renderLinesLoop fails rest acc
    else if fails o.id then Except.error (o.id, acc)
    else renderLinesLoop fails rest (acc ++ [Cmd.drawLines o.id])

/-- `_renderLines` (part_002 968-1006). -/
def renderLines (prog : ℕ) (fails : ℕ → Bool) (objs : List SceneObject) :
    Except (ℕ × List Cmd) (List Cmd) :=
  renderLinesLoop fails objs
    [Cmd.useProgram prog, Cmd.enable Cap.depthTest, Cmd.depthFuncLEqual,
     Cmd.depthMask true, Cmd.disable Cap.blend]

/-- The per-view object collections after partitioning (part_002 552-564). -/
structure Scene where
  meshObjects : List SceneObject
  gs4dObjects : List GSObject
  gs3dObjects : List GSObject
  lineObjects : List SceneObject
deriving Repr

/-- The per-view body of `render` (part_002 556-652): mesh pass, 4DGS group,
3DGS group, lines pass, in that order.  All shader programs are assumed
present (the `this.xxxProgram &&` guards hold).  Only `_renderLines` can
raise, and `render` does not catch it, so the result is an `Except` whose
error is the propagated exception. -/
def renderView (upd : Bool) (fails : ℕ → Bool) (hasDWO : Bool) (sc : Scene) :
    Except (ℕ × List Cmd) (List Cmd) :=
  let meshCmds :=
    if sc.meshObjects ≠ [] then
      meshPrelude meshProgramId ++ sc.meshObjects.flatMap (renderMesh fails)
    else []
  let gs4 :=
    if sc.gs4dObjects ≠ [] then
      renderGSObjects splatProgramId upd fails hasDWO sc.gs4dObjects
    else []
  let gs3 :=
    if sc.gs3dObjects ≠ [] then
      renderGSObjects splat3DGSProgramId upd fails hasDWO sc.gs3dObjects
    else []
  match
    (if sc.lineObjects ≠ [] then renderLines linesProgramId fails sc.lineObjects
     else Except.ok []) with
  | Except.ok lineCmds => Except.ok (meshCmds ++ gs4 ++ gs3 ++ lineCmds)
  | Except.error e => Except.error (e.1, meshCmds ++ gs4 ++ gs3 ++ e.2)

/-! ## GL state scanner for the trace -/

/-- The slice of GL state the claims consult. -/
structure GLState where
  depthMaskOn : Bool
  depthWriteOnly : ℤ
  blendOn : Bool
  depthTestOn : Bool
  stencilRef : ℕ
  blendFactors : BlendFactor × BlendFactor × BlendFactor × BlendFactor
  blendEqs : BlendEq × BlendEq
deriving DecidableEq, Repr

def stepGL (g : GLState) : Cmd → GLState
  | Cmd.enable Cap.blend => { g with blendOn := true }
  | Cmd.disable Cap.blend => { g with blendOn := false }
  | Cmd.enable Cap.depthTest => { g with depthTestOn := true }
  | Cmd.disable Cap.depthTest => { g with depthTestOn := false }
  | Cmd.depthMask b => { g with depthMaskOn := b }
  | Cmd.setDepthWriteOnly v => { g with depthWriteOnly := v }
  | Cmd.stencilFunc r => { g with stencilRef := r }
  | Cmd.blendFuncSeparate a b c d => { g with blendFactors := (a, b, c, d) }
  | Cmd.blendEquationSeparate a b => { g with blendEqs := (a, b) }
  | _ => g

/-- All `drawSplat` calls in a trace, each paired with the GL state in force
at the moment of the draw, starting the scan from state `g`. -/
def splatDrawStates (g : GLState) : List Cmd → List (ℕ × GLState)
  | [] => []
  | c :: rest =>
    let g2 := stepGL g c
    match c with
    | Cmd.drawSplat o => (o, g2) :: splatDrawStates g2 rest
    | _ => splatDrawStates g2 rest

/-- Folding the scanner over a whole trace. -/
def foldGL (g : GLState) (l : List Cmd) : GLState :=
  l.foldl stepGL g

/-- The premultiplied-alpha blend factor tuple
`(ONE, ONE_MINUS_SRC_ALPHA, ONE, ONE_MINUS_SRC_ALPHA)`. -/
def premultFactors : BlendFactor × BlendFactor × BlendFactor × BlendFactor :=
  (BlendFactor.one, BlendFactor.oneMinusSrcAlpha,
   BlendFactor.one, BlendFactor.oneMinusSrcAlpha)

/-- The GL state in force at the first draw of the object at loop index `i`:
depth write off, `depthWriteOnly = 0`, blending on with premultiplied-alpha
factors and `FUNC_ADD`, depth test on, stencil ref `i + 1`. -/
def colorPassState (i : ℕ) : GLState :=
  ⟨false, 0, true, true, i + 1, premultFactors, (BlendEq.funcAdd, BlendEq.funcAdd)⟩

/-- The GL state in force at the second draw of the object at loop index `i`:
depth write on, `depthWriteOnly = 1`, blending still on. -/
def depthPassState (i : ℕ) : GLState :=
  ⟨true, 1, true, true, i + 1, premultFactors, (BlendEq.funcAdd, BlendEq.funcAdd)⟩

/-- The property claimed for the two passes of one object: first a depth
pre-pass (depth write on, `depthWriteOnly` set to 1), then a color pass
(depth write off, depth test on, blending on with `(ONE,
ONE_MINUS_SRC_ALPHA)` on both channels and `FUNC_ADD`). -/
def checkPassAThenB : List GLState → Bool
  | [a, b] =>
    a.depthMaskOn && (a.depthWriteOnly == 1)
      && !b.depthMaskOn && b.depthTestOn && b.blendOn
      && (b.blendFactors == premultFactors)
      && (b.blendEqs == (BlendEq.funcAdd, BlendEq.funcAdd))
  | _ => false

/-- The draw states of the object with id `o` in a trace. -/
def drawStatesOf (g : GLState) (trace : List Cmd) (o : ℕ) : List GLState :=
  ((splatDrawStates g trace).filter (fun p => p.1 = o)).map (fun p => p.2)

/-- A generic GL entry state for concrete evaluations: WebGL defaults
(depth write on, blending off, depth test off). -/
def glDefault : GLState :=
  ⟨true, 0, false, false, 0, (BlendFactor.one, BlendFactor.one,
    BlendFactor.one, BlendFactor.one), (BlendEq.funcAdd, BlendEq.funcAdd)⟩

/-! ## Helper lemmas: the pitch clamp -/

theorem clampPitch_mem_Icc (x : ℝ) :
    clampPitch x ∈ Set.Icc (-(Real.pi / 2) + 1 / 100) (Real.pi / 2 - 1 / 100) := by
  have h3 : (3 : ℝ) < Real.pi := Real.pi_gt_three
  constructor
  · exact le_max_left _ _
  · apply max_le
    · linarith
    · exact min_le_left _ _

theorem clampPitch_eq_self {x : ℝ}
    (h : x ∈ Set.Icc (-(Real.pi / 2) + 1 / 100) (Real.pi / 2 - 1 / 100)) :
    clampPitch x = x := by
  unfold clampPitch
  rw [min_eq_right h.2, max_eq_right h.1]

/-! ## C3 — pitch range invariant -/

/-- The camera used in the C3 counterexample: constructed with
`pitchRad: 2`. -/
noncomputable def c3cam : Camera :=
  Camera.ofOptions { CameraOptions.empty with pitchRad := some 2 }

/-- C3, counterexample.  The claim asserts `pitchRad` lies strictly inside
`(-π/2 + 0.01, π/2 - 0.01)` at all times *including immediately after
construction*, for a camera constructed from any options.  The constructor
(part_001 35) stores `options.pitchRad ?? 0` without clamping, so a camera
constructed with `pitchRad: 2` starts with pitch `2`, which is outside the
claimed open interval (indeed `π/2 - 0.01 < 2`). -/
theorem c3_pitch_open_interval_false :
    c3cam.pitchRad = 2 ∧
      c3cam.pitchRad ∉
        Set.Ioo (-(Real.pi / 2) + 1 / 100) (Real.pi / 2 - 1 / 100) := by
  have hpi : Real.pi < 3.15 := Real.pi_lt_d2
  have h2 : c3cam.pitchRad = 2 := rfl
  refine ⟨h2, ?_⟩
  rw [h2]
  intro h
  have := h.2
  norm_num at this
  linarith

/-- C3, amended: after every `rotate` call (hence after any nonempty sequence
of them, at every intermediate point) the pitch lies in the **closed**
interval `[-π/2 + 0.01, π/2 - 0.01]`; the clamp in `rotate` (part_001
422-425) attains the endpoints, and the constructor itself does not clamp. -/
theorem c3_pitch_closed_after_rotate (c : Camera) (ops : List (ℝ × ℝ))
    (h : ops ≠ []) :
    (applyRotates c ops).pitchRad ∈
      Set.Icc (-(Real.pi / 2) + 1 / 100) (Real.pi / 2 - 1 / 100) := by
  rcases (List.eq_nil_or_concat ops) with hnil | ⟨l, op, rfl⟩
  · exact absurd hnil h
  · unfold applyRotates
    rw [List.concat_eq_append, List.foldl_append]
    exact clampPitch_mem_Icc _

/-- Witness for `c3_pitch_closed_after_rotate` at a concrete camera and a
single concrete `rotate(0, 0)` call. -/
theorem c3_pitch_closed_after_rotate_witness :
    ([((0 : ℝ), (0 : ℝ))] ≠ ([] : List (ℝ × ℝ))) ∧
      (applyRotates (Camera.ofOptions CameraOptions.empty)
          [((0 : ℝ), (0 : ℝ))]).pitchRad ∈
        Set.Icc (-(Real.pi / 2) + 1 / 100) (Real.pi / 2 - 1 / 100) :=
  ⟨by simp, c3_pitch_closed_after_rotate _ _ (by simp)⟩

/-! ## C8 — fx/fy vs targetVerticalFOV exclusivity -/

/-- The camera used in the C8 counterexample: `camera.fx = 123` has been
assigned through the setter. -/
noncomputable def c8cam : Camera :=
  (Camera.ofOptions CameraOptions.empty).setFx 123

/-- C8, counterexample.  The claim asserts that assigning
`camera.targetVerticalFOV` clears the previously stored fx/fy setting so
that only the FOV parameterization remains active.  In the source the
`targetVerticalFOV` setter (part_001 172-175) does not touch `_fx`/`_fy`:
after `fx = 123; targetVerticalFOV = 60`, the stored `_fx` is still `123`
(not the constructor default `1000`), and clearing the FOV again makes the
`fx` getter return the supposedly cleared `123`. -/
theorem c8_fov_does_not_clear_fx :
    (c8cam.setTargetVerticalFOV (some 60)).fx0 = 123 ∧
      ((c8cam.setTargetVerticalFOV (some 60)).setTargetVerticalFOV none).fx
        = 123 ∧
      (123 : ℝ) ≠ 1000 := by
  refine ⟨rfl, rfl, by norm_num⟩

/-- C8, amended: assigning `fx` or `fy` does clear `targetVerticalFOV`;
assigning `targetVerticalFOV` leaves the stored `_fx`/`_fy` intact and
merely takes precedence over them: while it is non-null (and `height > 0`)
the `fx`/`fy` getters return the FOV-derived focal lengths. -/
theorem c8_fov_precedence (c : Camera) (v : ℝ) (f : Option ℝ) (fov : ℝ)
    (h : c.height > 0) :
    (c.setFx v).targetVerticalFOV = none ∧
      (c.setFy v).targetVerticalFOV = none ∧
      (c.setTargetVerticalFOV f).fx0 = c.fx0 ∧
      (c.setTargetVerticalFOV f).fy0 = c.fy0 ∧
      (c.setTargetVerticalFOV (some fov)).fy
        = c.height / (2 * Real.tan (fov * Real.pi / 180 / 2)) ∧
      (c.setTargetVerticalFOV (some fov)).fx
        = c.width / (2 * Real.tan
            (2 * Real.arctan (Real.tan (fov * Real.pi / 180 / 2)
              * (c.width / c.height)) / 2)) := by
  refine ⟨rfl, rfl, rfl, rfl, ?_, ?_⟩
  · show (if c.height > 0 then _ else _) = _
    rw [if_pos h]
    rfl
  · show (if c.height > 0 then _ else _) = _
    rw [if_pos h]
    rfl

/-! ## C9 — rotate(δ,0) then rotate(-δ,0) -/

theorem normalize3_unitZ : normalize3 ⟨0, 0, 1⟩ = ⟨0, 0, 1⟩ := by
  unfold normalize3 norm3
  norm_num

theorem sin_hundredth_pos : (1 / 1000000 : ℝ) < Real.sin (1 / 100) := by
  have h := Real.sin_gt_sub_cube (show (0:ℝ) < 1 / 100 by norm_num) (by norm_num)
  nlinarith

/-- The default-orientation rotation matrix at pitch `π` has entry
`(0,0) = -1` (the `right` vector points along `-x`). -/
theorem buildRotation_at_pi :
    (buildRotationFromYawPitch 0 Real.pi ⟨0, 1, 0⟩ ⟨0, 0, 1⟩).r0.x = -1 := by
  unfold buildRotationFromYawPitch
  simp only [normalize3_unitZ]
  norm_num [Real.sin_pi, Real.cos_pi, cross3, norm3, normalize3]

/-- The default-orientation rotation matrix at the clamped pitch
`π/2 - 0.01` has entry `(0,0) = 1`. -/
theorem buildRotation_at_clamp :
    (buildRotationFromYawPitch 0 (Real.pi / 2 - 1 / 100)
      ⟨0, 1, 0⟩ ⟨0, 0, 1⟩).r0.x = 1 := by
  set p : ℝ := Real.pi / 2 - 1 / 100 with hp
  have hcos : Real.cos p = Real.sin (1 / 100) := Real.cos_pi_div_two_sub _
  have hpos : (0 : ℝ) < Real.sin (1 / 100) :=
    lt_trans (by norm_num) sin_hundredth_pos
  have hgt : (1 / 1000000 : ℝ) < Real.sin (1 / 100) := sin_hundredth_pos
  have hfnorm : norm3 ⟨0, Real.sin p, Real.cos p⟩ = 1 := by
    unfold norm3
    rw [show ((0 : ℝ) ^ 2 + Real.sin p ^ 2 + Real.cos p ^ 2)
        = Real.sin p ^ 2 + Real.cos p ^ 2 by ring,
      Real.sin_sq_add_cos_sq, Real.sqrt_one]
  have hfwd : normalize3 ⟨0, Real.sin p, Real.cos p⟩
      = ⟨0, Real.sin p, Real.cos p⟩ := by
    unfold normalize3
    rw [hfnorm]
    norm_num
  have hcross : cross3 ⟨0, 1, 0⟩ ⟨0, Real.sin p, Real.cos p⟩
      = ⟨Real.cos p, 0, 0⟩ := by
    unfold cross3
    norm_num
  have hrn : norm3 ⟨Real.cos p, 0, 0⟩ = Real.sin (1 / 100) := by
    unfold norm3
    rw [hcos, show (Real.sin (1 / 100) ^ 2 + (0 : ℝ) ^ 2 + (0 : ℝ) ^ 2)
        = Real.sin (1 / 100) ^ 2 by ring,
      Real.sqrt_sq hpos.le]
  have hnr : normalize3 ⟨Real.cos p, 0, 0⟩ = ⟨1, 0, 0⟩ := by
    unfold normalize3
    rw [hrn]
    rw [if_pos hgt, hcos, div_self hpos.ne.symm]
    norm_num
  have hnlt : (Real.sin (1 / 100) < 1 / 1000000) = False :=
    eq_false (not_lt.mpr hgt.le)
  unfold buildRotationFromYawPitch
  norm_num [normalize3_unitZ, hfwd, hcross, hrn, hnr, hnlt]

/-- The camera used in the C9 counterexample: constructed with
`pitchRad: π` (stored unclamped by the constructor). -/
noncomputable def c9cam : Camera :=
  Camera.ofOptions { CameraOptions.empty with pitchRad := some Real.pi }

/-- The same camera after `rotate(1, 0)` then `rotate(-1, 0)`. -/
noncomputable def c9cam2 : Camera := (c9cam.rotate 1 0).rotate (-1) 0

/-- C9, counterexample.  The claim quantifies over *every* Camera instance.
For a camera constructed with `pitchRad: π` (stored unclamped), the first
`rotate` call clamps the pitch to `π/2 - 0.01`, and `rotate(-δ, 0)` cannot
undo that: entry `(0,0)` of the rotation matrix flips from `-1` to `1`, a
change of `2` — far beyond any floating-point epsilon (here witnessed
against a generous `1/1000`). -/
theorem c9_rotate_pair_not_restoring :
    c9cam.rotation.r0.x = -1 ∧ c9cam2.rotation.r0.x = 1 ∧
      ¬ (|c9cam2.rotation.r0.x - c9cam.rotation.r0.x| < 1 / 1000) := by
  have h3 : (3 : ℝ) < Real.pi := Real.pi_gt_three
  have hA : c9cam.rotation.r0.x = -1 := by
    show (buildRotationFromYawPitch 0 Real.pi ⟨0, 1, 0⟩ ⟨0, 0, 1⟩).r0.x = -1
    exact buildRotation_at_pi
  have hclamp : clampPitch (Real.pi + 0) = Real.pi / 2 - 1 / 100 := by
    rw [add_zero]
    unfold clampPitch
    rw [min_eq_left (by linarith), max_eq_right (by linarith)]
  have hclamp2 : clampPitch (Real.pi / 2 - 1 / 100 + 0)
      = Real.pi / 2 - 1 / 100 := by
    rw [add_zero]
    exact clampPitch_eq_self ⟨by linarith, le_refl _⟩
  have hB : c9cam2.rotation.r0.x = 1 := by
    show (buildRotationFromYawPitch ((0 : ℝ) + 1 + -1)
      (clampPitch (clampPitch (Real.pi + 0) + 0)) ⟨0, 1, 0⟩ ⟨0, 0, 1⟩).r0.x = 1
    rw [hclamp, hclamp2, show ((0 : ℝ) + 1 + -1) = 0 by norm_num]
    exact buildRotation_at_clamp
  refine ⟨hA, hB, ?_⟩
  rw [hA, hB]
  norm_num

/-- C9, amended: for every camera whose current pitch is inside the clamp
range (which holds after any `rotate`, and at construction unless the caller
passed an out-of-range `pitchRad`), `rotate(δ, 0)` followed by
`rotate(-δ, 0)` restores the rotation matrix exactly (the idealised
real-arithmetic form of "within floating-point epsilon"). -/
theorem c9_rotate_inverse_restores (c : Camera) (δ : ℝ)
    (h : c.pitchRad ∈
      Set.Icc (-(Real.pi / 2) + 1 / 100) (Real.pi / 2 - 1 / 100)) :
    ((c.rotate δ 0).rotate (-δ) 0).rotation = c.rotation := by
  have hy : c.yawRad + δ + -δ = c.yawRad := by ring
  have hpitch : clampPitch (clampPitch (c.pitchRad + 0) + 0) = c.pitchRad := by
    simp only [add_zero]
    rw [clampPitch_eq_self h, clampPitch_eq_self h]
  show buildRotationFromYawPitch (c.yawRad + δ + -δ)
      (clampPitch (clampPitch (c.pitchRad + 0) + 0))
      c.worldUp c.forwardHorizontalRef
    = buildRotationFromYawPitch c.yawRad c.pitchRad
        c.worldUp c.forwardHorizontalRef
  rw [hy, hpitch]

/-- Witness for `c9_rotate_inverse_restores` at the default camera
(pitch 0) and `δ = 1`. -/
theorem c9_rotate_inverse_restores_witness :
    ((Camera.ofOptions CameraOptions.empty).pitchRad ∈
        Set.Icc (-(Real.pi / 2) + 1 / 100) (Real.pi / 2 - 1 / 100)) ∧
      ((((Camera.ofOptions CameraOptions.empty).rotate 1 0).rotate (-1)
          0).rotation = (Camera.ofOptions CameraOptions.empty).rotation) := by
  have h3 : (3 : ℝ) < Real.pi := Real.pi_gt_three
  have h : (Camera.ofOptions CameraOptions.empty).pitchRad ∈
      Set.Icc (-(Real.pi / 2) + 1 / 100) (Real.pi / 2 - 1 / 100) := by
    show (0 : ℝ) ∈ Set.Icc (-(Real.pi / 2) + 1 / 100) (Real.pi / 2 - 1 / 100)
    exact ⟨by linarith, by linarith⟩
  exact ⟨h, c9_rotate_inverse_restores _ 1 h⟩

/-- Witness for `c8_fov_precedence` at the default camera
(`height = 1080 > 0`). -/
theorem c8_fov_precedence_witness :
    (Camera.ofOptions CameraOptions.empty).height > 0 ∧
      ((Camera.ofOptions CameraOptions.empty).setTargetVerticalFOV
          (some 60)).fy
        = (Camera.ofOptions CameraOptions.empty).height
            / (2 * Real.tan (60 * Real.pi / 180 / 2)) :=
  ⟨by norm_num [Camera.ofOptions, CameraOptions.empty],
    (c8_fov_precedence (Camera.ofOptions CameraOptions.empty) 0 none 60
      (by norm_num [Camera.ofOptions, CameraOptions.empty])).2.2.2.2.1⟩

/-! ## C6 — two-pass order and GL state for splat objects -/

/-- The blend configuration the prelude establishes. -/
def BlendSet (g : GLState) : Prop :=
  g.blendOn = true ∧ g.blendFactors = premultFactors
    ∧ g.blendEqs = (BlendEq.funcAdd, BlendEq.funcAdd)

theorem splatDrawStates_append (g : GLState) (l1 l2 : List Cmd) :
    splatDrawStates g (l1 ++ l2)
      = splatDrawStates g l1 ++ splatDrawStates (foldGL g l1) l2 := by
  induction l1 generalizing g with
  | nil => simp [splatDrawStates, foldGL]
  | cons c rest ih =>
    cases c <;>
      simp [splatDrawStates, foldGL, List.foldl_cons, ih (stepGL g _)]

/-- One per-object block of `_renderGSObjects`, scanned from any entry state
with the prelude's blend configuration: exactly two draws of that object, the
first in the color-pass state, the second in the depth-pass state; and the
blend configuration survives the block. -/
theorem splatDrawStates_gsObjectBlock (g : GLState) (upd : Bool)
    (fails : ℕ → Bool) (i : ℕ) (obj : GSObject) (hg : BlendSet g) :
    splatDrawStates g (gsObjectBlock upd fails true i obj)
        = (if obj.ready = true ∧ fails obj.id = false then
            [(obj.id, colorPassState i), (obj.id, depthPassState i)]
          else [])
      ∧ BlendSet (foldGL g (gsObjectBlock upd fails true i obj)) := by
  obtain ⟨hb, hf, he⟩ := hg
  cases hready : obj.ready <;> cases hfails : fails obj.id <;>
    cases hw : upd && obj.hasWorker <;>
      refine ⟨?_, ?_, ?_, ?_⟩ <;>
        simp [gsObjectBlock, renderSplat, hready, hfails, hw, splatDrawStates,
          stepGL, foldGL, colorPassState, depthPassState, BlendSet, hb, hf, he]

/-- The blocks of a list of (index, object) pairs, scanned from any entry
state with the prelude's blend configuration. -/
theorem splatDrawStates_blocks (upd : Bool) (fails : ℕ → Bool)
    (pairs : List (ℕ × GSObject)) (g : GLState) (hg : BlendSet g) :
    splatDrawStates g
        (pairs.flatMap fun p => gsObjectBlock upd fails true p.1 p.2)
      = pairs.flatMap (fun p =>
          if p.2.ready = true ∧ fails p.2.id = false then
            [(p.2.id, colorPassState p.1), (p.2.id, depthPassState p.1)]
          else []) := by
  induction pairs generalizing g with
  | nil => simp [splatDrawStates]
  | cons p rest ih =>
    rw [List.flatMap_cons, List.flatMap_cons, splatDrawStates_append,
      (splatDrawStates_gsObjectBlock g upd fails p.1 p.2 hg).1,
      ih _ (splatDrawStates_gsObjectBlock g upd fails p.1 p.2 hg).2]

theorem gsPrelude_no_draw (g : GLState) (prog : ℕ) :
    splatDrawStates g (gsPrelude prog) = [] := by
  simp [gsPrelude, splatDrawStates]

theorem gsPrelude_blendSet (g : GLState) (prog : ℕ) :
    BlendSet (foldGL g (gsPrelude prog)) := by
  simp [gsPrelude, foldGL, stepGL, BlendSet, premultFactors]

/-- C6, amended.  For each splat object drawn, `_renderGSObjects` issues the
two passes in the order: first the pass with depth write **disabled** and
`depthWriteOnly = 0` (the blended color-style pass), then the pass with depth
write **enabled** and `depthWriteOnly = 1`; blending is enabled with
`(ONE, ONE_MINUS_SRC_ALPHA)` on both channels and `FUNC_ADD` during both
passes, depth test is on, and the object's stencil reference is its 1-based
group index.  (The claimed order — depth pre-pass first, then color pass —
is reversed relative to the code.) -/
theorem c6_color_then_depth_pass (prog : ℕ) (upd : Bool) (fails : ℕ → Bool)
    (objs : List GSObject) (g : GLState) :
    splatDrawStates g (renderGSObjects prog upd fails true objs)
      = objs.enum.flatMap (fun p =>
          if p.2.ready = true ∧ fails p.2.id = false then
            [(p.2.id, colorPassState p.1), (p.2.id, depthPassState p.1)]
          else []) := by
  rw [renderGSObjects, splatDrawStates_append, gsPrelude_no_draw,
    splatDrawStates_blocks upd fails objs.enum _ (gsPrelude_blendSet g prog),
    List.nil_append]

/-- The single splat object of the C6 counterexample. -/
def c6obj : GSObject := ⟨7, true, none, true⟩

/-- The trace of `_renderGSObjects` on a frame drawing just `c6obj`. -/
def c6trace : List Cmd :=
  renderGSObjects splatProgramId true (fun _ => false) true [c6obj]

/-- C6, counterexample.  The claim asserts pass A (depth write on,
`depthWriteOnly` set) is issued first and pass B (depth write off, blending)
second.  In the code (part_002 778-807) both branches of the loop run the
`depthWriteOnly = 0`, `depthMask(false)` pass first and the
`depthWriteOnly = 1`, `depthMask(true)` pass second, so the first draw of the
object happens with depth write disabled. -/
theorem c6_pass_order_reversed :
    ((drawStatesOf glDefault c6trace 7).map
        (fun s => (s.depthMaskOn, s.depthWriteOnly)))
      = [(false, 0), (true, 1)]
    ∧ checkPassAThenB (drawStatesOf glDefault c6trace 7) = false := by
  constructor <;> rfl

/-! ## C7 — per-object error isolation -/

/-- A `logError` (for a ready failing object) or `drawSplat` (for a ready
non-failing object) appears in every gs block of that object, at any loop
index. -/
theorem renderSplat_mem_logError (upd : Bool) (fails : ℕ → Bool)
    (o : GSObject) (hr : o.ready = true) (hf : fails o.id = true) :
    Cmd.logError o.id ∈ renderSplat upd fails o := by
  cases hw : upd && o.hasWorker <;> simp [renderSplat, hr, hf, hw]

theorem renderSplat_mem_draw (upd : Bool) (fails : ℕ → Bool)
    (o : GSObject) (hr : o.ready = true) (hf : fails o.id = false) :
    Cmd.drawSplat o.id ∈ renderSplat upd fails o := by
  cases hw : upd && o.hasWorker <;> simp [renderSplat, hr, hf, hw]

theorem mem_gsObjectBlock_of_mem_renderSplat (upd hasDWO : Bool)
    (fails : ℕ → Bool) (i : ℕ) (o : GSObject) (c : Cmd)
    (h : c ∈ renderSplat upd fails o) :
    c ∈ gsObjectBlock upd fails hasDWO i o := by
  unfold gsObjectBlock
  simp only [List.append_assoc, List.mem_append]
  tauto

theorem mem_blocks_of_mem (upd hasDWO : Bool) (fails : ℕ → Bool)
    (objs : List GSObject) (o : GSObject) (ho : o ∈ objs) (c : Cmd)
    (h : ∀ i, c ∈ gsObjectBlock upd fails hasDWO i o) (n : ℕ) :
    c ∈ (List.enumFrom n objs).flatMap
      (fun p => gsObjectBlock upd fails hasDWO p.1 p.2) := by
  induction objs generalizing n with
  | nil => cases ho
  | cons a rest ih =>
    rcases List.mem_cons.mp ho with rfl | hmem
    · simp only [List.enumFrom, List.flatMap_cons, List.mem_append]
      exact Or.inl (h n)
    · simp only [List.enumFrom, List.flatMap_cons, List.mem_append]
      exact Or.inr (ih hmem (n + 1))

theorem mem_renderGSObjects (prog : ℕ) (upd hasDWO : Bool) (fails : ℕ → Bool)
    (objs : List GSObject) (o : GSObject) (ho : o ∈ objs) (c : Cmd)
    (h : c ∈ renderSplat upd fails o) :
    c ∈ renderGSObjects prog upd fails hasDWO objs := by
  unfold renderGSObjects
  rw [List.mem_append]
  right
  exact mem_blocks_of_mem upd hasDWO fails objs o ho c
    (fun i => mem_gsObjectBlock_of_mem_renderSplat upd hasDWO fails i o c h) 0

/-- If some ready lines object fails, the lines loop raises. -/
theorem renderLinesLoop_error (fails : ℕ → Bool) (objs : List SceneObject)
    (o : SceneObject) (ho : o ∈ objs) (hr : o.ready = true)
    (hf : fails o.id = true) (acc : List Cmd) :
    ∃ e, renderLinesLoop fails objs acc = Except.error e := by
  induction objs generalizing acc with
  | nil => cases ho
  | cons a rest ih =>
    rcases List.mem_cons.mp ho with rfl | hmem
    · simp [renderLinesLoop, hr, hf]
    · by_cases hra : a.ready = true
      · by_cases hfa : fails a.id = true
        · exact ⟨(a.id, acc), by simp [renderLinesLoop, hra, hfa]⟩
        · simpa [renderLinesLoop, hra, Bool.not_eq_true _ ▸ hfa,
            eq_false_of_ne_true hfa] using ih hmem _
      · simpa [renderLinesLoop, eq_false_of_ne_true hra] using ih hmem acc

/-- C7, amended.  A GPU error during a **splat** or **mesh** object's draw is
caught and logged with the object's id, and every other ready object is still
drawn (`_renderSplat`/`_renderMesh` wrap the draw in `try/catch`); a GPU
error during a **lines** object's draw is *not* caught — `_renderLines` has
no `try/catch` and `render` does not wrap the call — so it propagates out of
`render`. -/
theorem c7_error_isolation :
    (∀ (prog : ℕ) (upd hasDWO : Bool) (fails : ℕ → Bool)
        (objs : List GSObject) (o : GSObject), o ∈ objs → o.ready = true →
        fails o.id = true →
        Cmd.logError o.id ∈ renderGSObjects prog upd fails hasDWO objs)
    ∧ (∀ (prog : ℕ) (upd hasDWO : Bool) (fails : ℕ → Bool)
        (objs : List GSObject) (o : GSObject), o ∈ objs → o.ready = true →
        fails o.id = false →
        Cmd.drawSplat o.id ∈ renderGSObjects prog upd fails hasDWO objs)
    ∧ (∀ (fails : ℕ → Bool) (objs : List SceneObject) (o : SceneObject),
        o ∈ objs → o.ready = true → fails o.id = true →
        Cmd.logError o.id ∈ objs.flatMap (renderMesh fails))
    ∧ (∀ (fails : ℕ → Bool) (objs : List SceneObject) (o : SceneObject),
        o ∈ objs → o.ready = true → fails o.id = false →
        Cmd.drawMesh o.id ∈ objs.flatMap (renderMesh fails))
    ∧ (∀ (upd hasDWO : Bool) (fails : ℕ → Bool) (sc : Scene)
        (o : SceneObject), o ∈ sc.lineObjects → o.ready = true →
        fails o.id = true →
        ∃ e, renderView upd fails hasDWO sc = Except.error e) := by
  refine ⟨?_, ?_, ?_, ?_, ?_⟩
  · intro prog upd hasDWO fails objs o ho hr hf
    exact mem_renderGSObjects prog upd hasDWO fails objs o ho _
      (renderSplat_mem_logError upd fails o hr hf)
  · intro prog upd hasDWO fails objs o ho hr hf
    exact mem_renderGSObjects prog upd hasDWO fails objs o ho _
      (renderSplat_mem_draw upd fails o hr hf)
  · intro fails objs o ho hr hf
    exact List.mem_flatMap.mpr ⟨o, ho, by simp [renderMesh, hr, hf]⟩
  · intro fails objs o ho hr hf
    exact List.mem_flatMap.mpr ⟨o, ho, by simp [renderMesh, hr, hf]⟩
  · intro upd hasDWO fails sc o ho hr hf
    have hne : sc.lineObjects ≠ [] := by
      intro h; rw [h] at ho; cases ho
    obtain ⟨e, he⟩ :=
      renderLinesLoop_error fails sc.lineObjects o ho hr hf
        [Cmd.useProgram linesProgramId, Cmd.enable Cap.depthTest,
         Cmd.depthFuncLEqual, Cmd.depthMask true, Cmd.disable Cap.blend]
    simp only [renderView, renderLines]
    rw [if_pos hne, he]
    exact ⟨_, rfl⟩

/-- The scene of the C7 counterexample: one ready lines object with id 5
whose draw raises. -/
def c7scene : Scene := ⟨[], [], [], [⟨5, true⟩]⟩

/-- C7, counterexample.  The claim asserts a GPU error during *any* single
object's draw (splat, mesh, or lines) is caught and `render()` never
propagates.  For a scene whose only object is a ready lines object whose draw
raises, `render` propagates the exception (the error value carries the
offending id and the commands already issued). -/
theorem c7_lines_error_propagates :
    renderView true (fun _ => true) true c7scene
      = Except.error (5,
          [Cmd.useProgram linesProgramId, Cmd.enable Cap.depthTest,
           Cmd.depthFuncLEqual, Cmd.depthMask true, Cmd.disable Cap.blend]) := by
  simp [renderView, renderLines, renderLinesLoop, c7scene]

/-- Witness for `c7_error_isolation`, applying every conjunct at concrete
scenes. -/
theorem c7_error_isolation_witness :
    (Cmd.logError 7 ∈
        renderGSObjects 1 true (fun _ => true) true [(⟨7, true, none, true⟩ : GSObject)])
    ∧ (Cmd.drawSplat 7 ∈
        renderGSObjects 1 true (fun _ => false) true [(⟨7, true, none, true⟩ : GSObject)])
    ∧ (Cmd.logError 8 ∈
        [(⟨8, true⟩ : SceneObject)].flatMap (renderMesh (fun _ => true)))
    ∧ (Cmd.drawMesh 8 ∈
        [(⟨8, true⟩ : SceneObject)].flatMap (renderMesh (fun _ => false)))
    ∧ (∃ e, renderView true (fun _ => true) true c7scene = Except.error e) :=
  ⟨c7_error_isolation.1 1 true true (fun _ => true)
     [⟨7, true, none, true⟩] ⟨7, true, none, true⟩ (by simp) rfl rfl,
   c7_error_isolation.2.1 1 true true (fun _ => false)
     [⟨7, true, none, true⟩] ⟨7, true, none, true⟩ (by simp) rfl rfl,
   c7_error_isolation.2.2.1 (fun _ => true) [⟨8, true⟩] ⟨8, true⟩
     (by simp) rfl rfl,
   c7_error_isolation.2.2.2.1 (fun _ => false) [⟨8, true⟩] ⟨8, true⟩
     (by simp) rfl rfl,
   c7_error_isolation.2.2.2.2 true true (fun _ => true) c7scene ⟨5, true⟩
     (by simp [c7scene]) rfl rfl⟩

/-! ## Worker lemmas shared by C4, C5, C10 -/

/-- `sortCore` always posts exactly one message and reports the computation
as having run. -/
theorem sortCore_shape (st : WState) (pos : List ℚ) (vp : VP) :
    ((sortCore st pos vp).2.1).length = 1 ∧ (sortCore st pos vp).2.2 = true := by
  unfold sortCore
  split <;> simp

/-- `runSort` only writes `lastProj`, `lastSortStrategy` and
`lastVertexCount`. -/
theorem runSort_shape (st : WState) (v : VP) (f : Bool) :
    ∃ a b c, (runSort st v f).1
      = { st with lastProj := a, lastSortStrategy := b, lastVertexCount := c } := by
  obtain ⟨lp0, pos0, vpj, vc, lvc, sr, ss, lss, tm⟩ := st
  unfold runSort sortCore runSortUpd
  cases pos0 <;> cases lp0 <;> simp only [] <;> (try split_ifs) <;>
    exact ⟨_, _, _, rfl⟩

/-- Every worker variable other than the three written by `runSort` is
untouched by it. -/
theorem runSort_preserves (st : WState) (v : VP) (f : Bool) :
    (runSort st v f).1.sortRunning = st.sortRunning
    ∧ (runSort st v f).1.timers = st.timers
    ∧ (runSort st v f).1.positions = st.positions
    ∧ (runSort st v f).1.viewProj = st.viewProj
    ∧ (runSort st v f).1.sortStrategy = st.sortStrategy
    ∧ (runSort st v f).1.vertexCount = st.vertexCount := by
  obtain ⟨a, b, c, h⟩ := runSort_shape st v f
  rw [h]
  exact ⟨rfl, rfl, rfl, rfl, rfl, rfl⟩

/-- A forced `runSort` with loaded positions always posts exactly one result
and runs the computation, regardless of the skip heuristic's inputs. -/
theorem runSort_force (st : WState) (v : VP) (ps : List ℚ)
    (hp : st.positions = some ps) :
    ((runSort st v true).2.1).length = 1 ∧ (runSort st v true).2.2 = true := by
  unfold runSort
  rw [hp]
  cases hlp : st.lastProj <;> simp [hlp, sortCore_shape]

/-! ## C4 — skip heuristic -/

/-- C4, as claimed.  If the worker receives a `{view}` message whose
camera-Z row is within (strictly inside, matching the source's
`dist < 0.01`) the skip threshold of the last sorted view, and the vertex
count and strategy are unchanged since the last completed sort, then no sort
computation runs and nothing is posted for that view — whether or not a sort
is currently marked as running. -/
theorem c4_skip_small_view_change (st : WState) (v : VP) (ps : List ℚ)
    (lp : VP)
    (hp : st.positions = some ps) (hlp : st.lastProj = some lp)
    (hstrat : st.lastSortStrategy = st.sortStrategy)
    (hvc : st.lastVertexCount = st.vertexCount)
    (hdist : skipDist2 lp.mat v.mat < 1 / 10000) :
    (onMessage st (HostMsg.view v)).2.posts = []
    ∧ (onMessage st (HostMsg.view v)).2.computed = 0 := by
  have hdist2 : skipDist2 lp.mat v.mat < 10000⁻¹ := by
    rwa [one_div] at hdist
  unfold onMessage throttledSort
  cases hrun : st.sortRunning
  · unfold runSort
    simp [hrun, hp, hlp, hstrat, hvc, hdist2]
  · simp [hrun, StepOut.nil]

/-- The concrete matrix of the C4 witness: camera-Z row `(1, 0, 0)`. -/
def vpA : VP := ⟨0, [0, 0, 1, 0, 0, 0, 0, 0, 0, 0, 0, 0, 0, 0, 0, 0]⟩

/-- A fresh re-post of the same matrix values (different identity). -/
def vpB : VP := ⟨1, [0, 0, 1, 0, 0, 0, 0, 0, 0, 0, 0, 0, 0, 0, 0, 0]⟩

/-- A worker state that has completed one sort of `vpA` over one point. -/
def c4st : WState :=
  ⟨some vpA, some [0, 0, 0], some vpA, 1, 1, false,
    SortStrategy.backToFront, SortStrategy.backToFront, []⟩

/-- Witness for `c4_skip_small_view_change`: re-issuing the identical view. -/
theorem c4_skip_small_view_change_witness :
    (c4st.positions = some [0, 0, 0] ∧ c4st.lastProj = some vpA
      ∧ c4st.lastSortStrategy = c4st.sortStrategy
      ∧ c4st.lastVertexCount = c4st.vertexCount
      ∧ skipDist2 vpA.mat vpB.mat < 1 / 10000)
    ∧ ((onMessage c4st (HostMsg.view vpB)).2.posts = []
      ∧ (onMessage c4st (HostMsg.view vpB)).2.computed = 0) :=
  ⟨⟨rfl, rfl, rfl, rfl,
      by norm_num [skipDist2, vpA, vpB, List.getD_cons_zero,
        List.getD_cons_succ]⟩,
    c4_skip_small_view_change c4st vpB [0, 0, 0] vpA rfl rfl rfl rfl
      (by norm_num [skipDist2, vpA, vpB, List.getD_cons_zero,
        List.getD_cons_succ])⟩

/-! ## C10 — strategy messages force a re-sort; pipeline posts them -/

/-- C10.  Worker side: when positions and a view are loaded and no sort is
running, *any* `{sortStrategy}` message (equal to the current strategy or
not) triggers exactly one immediate `runSort(viewProj, forceSort = true)`,
which computes and posts one result — the skip heuristic is bypassed because
`forceSort` short-circuits it.  Pipeline side: `_renderSplat` posts the
`{sortStrategy}` message and only then invokes the worker-update callback
(which posts the `{view}` matrix), for every splat object with a worker, on
every draw with the callback provided. -/
theorem c10_strategy_forces_resort :
    (∀ (st : WState) (s : SortStrategy) (v : VP) (ps : List ℚ),
        st.positions = some ps → st.viewProj = some v →
        st.sortRunning = false →
        ((onMessage st (HostMsg.strategy s)).2.posts).length = 1
        ∧ (onMessage st (HostMsg.strategy s)).2.calls = [v]
        ∧ (onMessage st (HostMsg.strategy s)).2.computed = 1
        ∧ (onMessage st (HostMsg.strategy s)).1.sortStrategy = s)
    ∧ (∀ (fails : ℕ → Bool) (obj : GSObject), obj.hasWorker = true →
        ∃ rest, renderSplat true fails obj
          = Cmd.postStrategy obj.id
              (obj.strategyOpt.getD SortStrategy.backToFront)
            :: Cmd.updateWorker obj.id :: rest) := by
  constructor
  · intro st s v ps hp hv hrun
    unfold onMessage
    simp only [hv, hp, hrun, Option.isSome_some, Bool.and_self,
      Bool.not_false, if_true]
    refine ⟨(runSort_force _ v ps rfl).1, trivial, ?_, ?_⟩
    · rw [(runSort_force _ v ps rfl).2]
      rfl
    · rw [(runSort_preserves _ v true).2.2.2.2.1]
  · intro fails obj hw
    refine ⟨(if !obj.ready then [] else
      if fails obj.id then [Cmd.bindObjTexture obj.id, Cmd.logError obj.id]
      else [Cmd.bindObjTexture obj.id, Cmd.drawSplat obj.id]), ?_⟩
    simp [renderSplat, hw]

/-- A worker state ready for the C10 witness: one loaded point, a view, no
sort in flight, strategy `back-to-front`. -/
def c10st : WState :=
  ⟨some vpA, some [0, 0, 0], some vpA, 1, 1, false,
    SortStrategy.backToFront, SortStrategy.backToFront, []⟩

/-- Witness for `c10_strategy_forces_resort`: the strategy message carries
the *already active* strategy, and a concrete splat object with a worker. -/
theorem c10_strategy_forces_resort_witness :
    (c10st.positions = some [0, 0, 0] ∧ c10st.viewProj = some vpA
      ∧ c10st.sortRunning = false
      ∧ ((onMessage c10st
            (HostMsg.strategy SortStrategy.backToFront)).2.posts).length = 1
      ∧ (onMessage c10st
            (HostMsg.strategy SortStrategy.backToFront)).2.calls = [vpA])
    ∧ ((⟨7, true, none, true⟩ : GSObject).hasWorker = true
      ∧ ∃ rest, renderSplat true (fun _ => false) ⟨7, true, none, true⟩
          = Cmd.postStrategy 7 SortStrategy.backToFront
            :: Cmd.updateWorker 7 :: rest) :=
  ⟨⟨rfl, rfl, rfl,
    (c10_strategy_forces_resort.1 c10st SortStrategy.backToFront vpA
      [0, 0, 0] rfl rfl rfl).1,
    (c10_strategy_forces_resort.1 c10st SortStrategy.backToFront vpA
      [0, 0, 0] rfl rfl rfl).2.1⟩,
   ⟨rfl, c10_strategy_forces_resort.2 (fun _ => false) ⟨7, true, none, true⟩
      rfl⟩⟩

/-! ## C5 — throttling: one sort in flight, coalesced follow-up -/

/-- The throttling invariant: a sort is "in flight" (`sortRunning`) exactly
when one timer callback is pending, and there is never more than one pending
callback. -/
def TimerInv (st : WState) : Prop :=
  st.timers.length = if st.sortRunning then 1 else 0

theorem throttledSort_timerInv (st : WState) (h : TimerInv st) :
    TimerInv (throttledSort st).1 := by
  unfold throttledSort
  split
  · rename_i hcond
    simp only [Bool.and_eq_true, Bool.not_eq_true'] at hcond
    have h0 : st.timers.length = 0 := by
      unfold TimerInv at h
      rw [hcond.1.1] at h
      simpa using h
    split
    · unfold TimerInv
      simp [(runSort_preserves _ _ _).1, (runSort_preserves _ _ _).2.1, h0]
    · exact h
  · exact h

theorem onMessage_timerInv (st : WState) (m : HostMsg) (h : TimerInv st) :
    TimerInv (onMessage st m).1 := by
  cases m with
  | texture tex vc => exact h
  | setVertexCount vc =>
    simp only [onMessage]
    split
    · exact h
    · exact h
  | setDebugLogs b => exact h
  | view v => exact throttledSort_timerInv _ h
  | strategy s =>
    simp only [onMessage]
    split
    · split
      · rename_i hrun
        simp only [Bool.not_eq_true'] at hrun
        have h0 : st.timers.length = 0 := by
          unfold TimerInv at h
          rw [show st.sortRunning = false from hrun] at h
          simpa using h
        split
        · unfold TimerInv
          simp [(runSort_preserves _ _ _).1, (runSort_preserves _ _ _).2.1, h0]
        · exact h
      · exact h
    · exact h

theorem fireTimer_timerInv (st : WState) (h : TimerInv st) :
    TimerInv (fireTimer st).1 := by
  rcases htm : st.timers with _ | ⟨cb, rest⟩
  · simp only [fireTimer, htm]
    exact h
  · have hrun : st.sortRunning = true := by
      cases hr : st.sortRunning
      · unfold TimerInv at h
        rw [htm, hr] at h
        simp at h
      · rfl
    have hrest : rest = [] := by
      unfold TimerInv at h
      rw [htm, hrun] at h
      simpa using h
    have h2 : TimerInv { st with timers := rest, sortRunning := false } := by
      unfold TimerInv
      simp [hrest]
    cases cb with
    | strategyCb =>
      simp only [fireTimer, htm]
      unfold TimerInv
      simp [hrest]
    | throttleCb lv =>
      simp only [fireTimer, htm]
      split
      · split
        · exact throttledSort_timerInv _ h2
        · exact h2
      · exact h2

/-- A burst of `{view}` messages processed in order (each is one
`onmessage` invocation). -/
def processViews : WState → List VP → WState × StepOut
  | st, [] => (st, StepOut.nil)
  | st, v :: rest =>
    let r1 := onMessage st (HostMsg.view v)
    let r2 := processViews r1.1 rest
    (r2.1, ⟨r1.2.posts ++ r2.2.posts, r1.2.calls ++ r2.2.calls,
      r1.2.computed + r2.2.computed⟩)

/-- The `cons` unfolding of `processViews`, stated once for rewriting. -/
theorem processViews_cons (st : WState) (v : VP) (rest : List VP) :
    processViews st (v :: rest)
      = ((processViews (onMessage st (HostMsg.view v)).1 rest).1,
         ⟨(onMessage st (HostMsg.view v)).2.posts
            ++ (processViews (onMessage st (HostMsg.view v)).1 rest).2.posts,
          (onMessage st (HostMsg.view v)).2.calls
            ++ (processViews (onMessage st (HostMsg.view v)).1 rest).2.calls,
          (onMessage st (HostMsg.view v)).2.computed
            + (processViews (onMessage st (HostMsg.view v)).1 rest).2.computed⟩) :=
  rfl

/-- While a sort is in flight, a `{view}` message only replaces `viewProj`. -/
theorem onMessage_view_running (st : WState) (v : VP)
    (h : st.sortRunning = true) :
    onMessage st (HostMsg.view v)
      = ({ st with viewProj := some v }, StepOut.nil) := by
  unfold onMessage throttledSort
  simp [h]

/-- While a sort is in flight, a burst of views coalesces: nothing is posted,
no `runSort` call happens, and only `viewProj` is updated — to the most
recent view. -/
theorem processViews_running (st : WState) (vs : List VP) (hvs : vs ≠ [])
    (h : st.sortRunning = true) :
    (processViews st vs).1 = { st with viewProj := some (vs.getLast hvs) }
    ∧ (processViews st vs).2 = StepOut.nil := by
  induction vs generalizing st with
  | nil => exact absurd rfl hvs
  | cons v rest ih =>
    cases rest with
    | nil =>
      unfold processViews processViews
      rw [onMessage_view_running st v h]
      exact ⟨rfl, rfl⟩
    | cons w rest2 =>
      have hrest : w :: rest2 ≠ [] := by simp
      have hh := ih { st with viewProj := some v } hrest h
      rw [List.getLast_cons hrest]
      rw [processViews_cons, onMessage_view_running st v h]
      simp only [hh.1, hh.2]
      exact ⟨trivial, rfl⟩

/-- Firing the pending throttle callback when a newer view has been posted
since: exactly one follow-up `runSort` runs, on the newest view, and exactly
one new callback is scheduled. -/
theorem fireTimer_coalesce (st : WState) (lv v : VP) (ps : List ℚ)
    (htm : st.timers = [TimerCb.throttleCb lv])
    (hv : st.viewProj = some v) (hne : lv ≠ v)
    (hp : st.positions = some ps) :
    (fireTimer st).2.calls = [v]
    ∧ (fireTimer st).1.timers = [TimerCb.throttleCb v]
    ∧ (fireTimer st).1.sortRunning = true := by
  unfold fireTimer throttledSort
  rw [htm]
  simp [hv, hp, hne, (runSort_preserves _ _ _).1, (runSort_preserves _ _ _).2.1]

/-- C5.  (1) In every reachable worker state, at most one sort is in flight:
`sortRunning` holds exactly when one timer callback is pending, and the
pending-callback queue never exceeds one entry.  (2) When one or more view
messages arrive while a sort is in flight, none of them starts a sort or
posts a result and the single pending callback is untouched; when that
callback then fires, exactly one follow-up `runSort` runs — on the most
recent view — and exactly one new callback is scheduled. -/
theorem c5_throttle_coalescing :
    (∀ st : WState, Reachable st → TimerInv st)
    ∧ (∀ (st : WState) (lv : VP) (vs : List VP) (hvs : vs ≠ [])
        (ps : List ℚ),
        st.sortRunning = true → st.timers = [TimerCb.throttleCb lv] →
        st.positions = some ps → vs.getLast hvs ≠ lv →
        (processViews st vs).2.posts = []
        ∧ (processViews st vs).2.calls = []
        ∧ (processViews st vs).1.timers = [TimerCb.throttleCb lv]
        ∧ (fireTimer (processViews st vs).1).2.calls = [vs.getLast hvs]
        ∧ (fireTimer (processViews st vs).1).1.timers
            = [TimerCb.throttleCb (vs.getLast hvs)]
        ∧ (fireTimer (processViews st vs).1).1.sortRunning = true) := by
  constructor
  · intro st h
    induction h with
    | init => rfl
    | step e hr ih =>
      cases e with
      | msg m => exact onMessage_timerInv _ m ih
      | timer => exact fireTimer_timerInv _ ih
  · intro st lv vs hvs ps hrun htm hp hfresh
    obtain ⟨hst, hout⟩ := processViews_running st vs hvs hrun
    have hcoal := fireTimer_coalesce ((processViews st vs).1) lv
      (vs.getLast hvs) ps (by rw [hst]; exact htm) (by rw [hst])
      (Ne.symm hfresh) (by rw [hst]; exact hp)
    refine ⟨by rw [hout]; rfl, by rw [hout]; rfl, by rw [hst]; exact htm,
      hcoal.1, hcoal.2.1, hcoal.2.2⟩

/-- A concrete mid-sort worker state for the C5 witness: one pending
throttle callback that captured `vpA`. -/
def c5st : WState :=
  ⟨some vpA, some [0, 0, 0], some vpA, 1, 1, true,
    SortStrategy.backToFront, SortStrategy.backToFront,
    [TimerCb.throttleCb vpA]⟩

/-- Witness for `c5_throttle_coalescing`: the invariant at the initial
state, and the coalescing behaviour for one fresh view arriving mid-sort. -/
theorem c5_throttle_coalescing_witness :
    TimerInv initState
    ∧ (c5st.sortRunning = true ∧ c5st.timers = [TimerCb.throttleCb vpA]
        ∧ c5st.positions = some [0, 0, 0] ∧ vpB ≠ vpA)
    ∧ ((processViews c5st [vpB]).2.calls = []
        ∧ (fireTimer (processViews c5st [vpB]).1).2.calls = [vpB]
        ∧ (fireTimer (processViews c5st [vpB]).1).1.sortRunning = true) :=
  have hne : vpB ≠ vpA := by simp [vpA, vpB]
  have h := c5_throttle_coalescing.2 c5st vpA [vpB] (by simp) [0, 0, 0]
    rfl rfl rfl hne
  ⟨c5_throttle_coalescing.1 initState Reachable.init,
    ⟨rfl, rfl, rfl, hne⟩, h.2.1, h.2.2.2.1, h.2.2.2.2.2⟩

/-! ## C1, C2 — the counting sort loses the max-depth bucket

The bucket remap multiplies by `65536 / (maxDepth - minDepth)`, so a point
whose key equals `maxDepth` lands in bucket `65536` — one past the end of the
65536-entry `counts0`/`starts0` arrays.  All writes involving that bucket are
silently ignored (JS typed-array out-of-range semantics), so such points are
never scattered into `depthIndex`, whose untouched slots keep their initial
value `0`.  The inputs below make every floating-point operation exact
(`maxDepth - minDepth = 65536`, so `depthInv = 1.0` exactly in IEEE doubles),
hence the exact-rational model computes precisely what the JS code computes.
-/

/-- Closed form of the ascending prefix-sum loop. -/
theorem startsLoopFTB_get (counts : ℕ → ℕ) (k : ℕ) :
    ∀ (i total : ℕ) (s : ℕ → ℕ) (b : ℕ),
    startsLoopFTB counts k i total s b
      = if i ≤ b ∧ b < i + k ∧ b < 65536 then
          total + ∑ j ∈ Finset.Ico i b, counts j
        else s b := by
  induction k with
  | zero =>
    intro i total s b
    simp only [startsLoopFTB]
    rw [if_neg (by omega)]
  | succ k ih =>
    intro i total s b
    simp only [startsLoopFTB]
    rw [ih]
    by_cases h1 : i + 1 ≤ b ∧ b < i + 1 + k ∧ b < 65536
    · rw [if_pos h1, if_pos (by omega)]
      rw [Finset.sum_eq_sum_Ico_succ_bot (by omega : i < b)]
      omega
    · rw [if_neg h1]
      unfold aset
      by_cases h2 : b = i ∧ i < 65536
      · rw [if_pos h2, if_pos (by omega)]
        obtain ⟨rfl, _⟩ := h2
        simp
      · rw [if_neg h2, if_neg (by omega)]

/-- `starts0[b]` after the front-to-back prefix pass is the number of points
in buckets `0 .. b-1`. -/
theorem startsFTB_get (counts : ℕ → ℕ) (b : ℕ) (hb : b < 65536) :
    startsFTB counts b = ∑ j ∈ Finset.range b, counts j := by
  unfold startsFTB
  rw [startsLoopFTB_get]
  rw [if_pos (by omega)]
  rw [Finset.range_eq_Ico, Nat.zero_add]

/-- One scatter iteration with an in-range bucket. -/
theorem scatterLoop_cons_in (n : ℕ) (b : ℤ) (rest : List ℤ) (i : ℕ)
    (starts d : ℕ → ℕ) (h : 0 ≤ b ∧ b < 65536) :
    scatterLoop n (b :: rest) i starts d
      = scatterLoop n rest (i + 1)
          (aset starts b.toNat (starts b.toNat + 1) 65536)
          (aset d (starts b.toNat) i n) := by
  rw [scatterLoop, if_pos h]

/-- One scatter iteration with an out-of-range bucket: a no-op. -/
theorem scatterLoop_cons_out (n : ℕ) (b : ℤ) (rest : List ℤ) (i : ℕ)
    (starts d : ℕ → ℕ) (h : ¬ (0 ≤ b ∧ b < 65536)) :
    scatterLoop n (b :: rest) i starts d
      = scatterLoop n rest (i + 1) starts d := by
  rw [scatterLoop, if_neg h]

/-- C1 point buffer: two points, at `x = 0` and `x = 16` (depth keys `0` and
`16 * 4096 = 65536`). -/
def c1ps : List ℚ := [0, 0, 0, 16, 0, 0]

/-- C1 view-projection matrix: entry 2 is `1`, the rest `0`, so the depth
key of a point is `4096 * x` truncated. -/
def c1vp : VP := ⟨0, [0, 0, 1, 0, 0, 0, 0, 0, 0, 0, 0, 0, 0, 0, 0, 0]⟩

/-- Worker state with the C1 buffer loaded (`vertexCount = 2`), strategy
`front-to-back`, no sort completed yet. -/
def c1st : WState :=
  ⟨none, some c1ps, some c1vp, 2, 0, false,
    SortStrategy.frontToBack, SortStrategy.frontToBack, []⟩

theorem c1_keys :
    List.map (depthKey c1vp.mat c1ps) (List.range 2) = [0, 65536] := by
  have h0 : depthKey c1vp.mat c1ps 0 = 0 := by
    unfold depthKey jsTrunc toInt32
    norm_num [c1vp, c1ps]
  have h1 : depthKey c1vp.mat c1ps 1 = 65536 := by
    unfold depthKey jsTrunc toInt32
    norm_num [c1vp, c1ps]
  rw [show List.range 2 = [0, 1] from rfl]
  rw [List.map_cons, List.map_cons, List.map_nil, h0, h1]

theorem c1_buckets :
    List.map (bucketOf (some 0) (depthInv (some 65536) (some 0))) [0, 65536]
      = [0, 65536] := by
  have hdinv : depthInv (some 65536) (some 0) = 1 := by
    unfold depthInv
    norm_num
  rw [hdinv]
  have h0 : bucketOf (some 0) 1 0 = 0 := by
    unfold bucketOf jsTrunc toInt32
    norm_num
  have h1 : bucketOf (some 0) 1 65536 = 65536 := by
    unfold bucketOf jsTrunc toInt32
    norm_num
  rw [List.map_cons, List.map_cons, List.map_nil, h0, h1]

theorem c1_out :
    List.map
      (scatterLoop 2 [0, 65536] 0
        (startsFTB (countsOf [0, 65536])) (fun _ => 0)).2
      (List.range 2) = [0, 0] := by
  simp only [scatterLoop]
  rw [if_pos (by norm_num), if_neg (by norm_num)]
  rw [show List.range 2 = [0, 1] from rfl]
  simp [aset]

/-- C1 (code bug).  On the loaded two-point buffer, `runSort` posts
`depthIndex = [0, 0]`: the max-depth point (index 1) maps to bucket 65536,
one past the end of the bucket arrays, so it is never scattered, and the
posted index list is **not** a permutation of `[0, 2)` — index 0 is
duplicated and index 1 is missing. -/
theorem c1_depthIndex_not_permutation :
    (runSort c1st c1vp false).2.1 = [⟨[0, 0], c1vp, 2⟩]
    ∧ ¬ List.Perm [0, 0] (List.range 2) := by
  constructor
  · show (sortCore { c1st with lastVertexCount := 2 } c1ps c1vp).2.1 = _
    unfold sortCore
    simp only [c1st]
    rw [c1_keys]
    rw [show List.foldl omax none ([0, 65536] : List ℤ) = some 65536 by
      simp [omax]]
    rw [show List.foldl omin none ([0, 65536] : List ℤ) = some 0 by
      simp [omin]]
    rw [if_neg (by decide : ¬ (SortStrategy.frontToBack = SortStrategy.sNone))]
    rw [c1_buckets, c1_out]
  · decide

/-- C2 point buffer: four points at `x = 0, 1/4096, 16, 1/2048` (depth keys
`0, 1, 65536, 2`; all exactly representable in IEEE doubles). -/
def c2ps : List ℚ :=
  [0, 0, 0, 1 / 4096, 0, 0, 16, 0, 0, 1 / 2048, 0, 0]

/-- Worker state with the C2 buffer loaded (`vertexCount = 4`), strategy
`front-to-back`, no sort completed yet. -/
def c2st : WState :=
  ⟨none, some c2ps, some c1vp, 4, 0, false,
    SortStrategy.frontToBack, SortStrategy.frontToBack, []⟩

theorem c2_keys :
    List.map (depthKey c1vp.mat c2ps) (List.range 4) = [0, 1, 65536, 2] := by
  have h0 : depthKey c1vp.mat c2ps 0 = 0 := by
    unfold depthKey jsTrunc toInt32
    norm_num [c1vp, c2ps]
  have h1 : depthKey c1vp.mat c2ps 1 = 1 := by
    unfold depthKey jsTrunc toInt32
    norm_num [c1vp, c2ps]
  have h2 : depthKey c1vp.mat c2ps 2 = 65536 := by
    unfold depthKey jsTrunc toInt32
    norm_num [c1vp, c2ps]
  have h3 : depthKey c1vp.mat c2ps 3 = 2 := by
    unfold depthKey jsTrunc toInt32
    norm_num [c1vp, c2ps]
  rw [show List.range 4 = [0, 1, 2, 3] from rfl]
  rw [List.map_cons, List.map_cons, List.map_cons, List.map_cons,
    List.map_nil, h0, h1, h2, h3]

theorem c2_buckets :
    List.map (bucketOf (some 0) (depthInv (some 65536) (some 0)))
        [0, 1, 65536, 2]
      = [0, 1, 65536, 2] := by
  have hdinv : depthInv (some 65536) (some 0) = 1 := by
    unfold depthInv
    norm_num
  rw [hdinv]
  have h0 : bucketOf (some 0) 1 0 = 0 := by
    unfold bucketOf jsTrunc toInt32
    norm_num
  have h1 : bucketOf (some 0) 1 1 = 1 := by
    unfold bucketOf jsTrunc toInt32
    norm_num
  have h2 : bucketOf (some 0) 1 65536 = 65536 := by
    unfold bucketOf jsTrunc toInt32
    norm_num
  have h3 : bucketOf (some 0) 1 2 = 2 := by
    unfold bucketOf jsTrunc toInt32
    norm_num
  rw [List.map_cons, List.map_cons, List.map_cons, List.map_cons,
    List.map_nil, h0, h1, h2, h3]

theorem c2_out :
    List.map
      (scatterLoop 4 [0, 1, 65536, 2] 0
        (startsFTB (countsOf [0, 1, 65536, 2])) (fun _ => 0)).2
      (List.range 4) = [0, 1, 3, 0] := by
  have hc0 : countsOf [0, 1, 65536, 2] 0 = 1 := by
    norm_num [countsOf, aset, show Int.toNat 0 = 0 from rfl,
      show Int.toNat 1 = 1 from rfl, show Int.toNat 2 = 2 from rfl,
      show Int.toNat 65536 = 65536 from rfl]
  have hc1 : countsOf [0, 1, 65536, 2] 1 = 1 := by
    norm_num [countsOf, aset, show Int.toNat 0 = 0 from rfl,
      show Int.toNat 1 = 1 from rfl, show Int.toNat 2 = 2 from rfl,
      show Int.toNat 65536 = 65536 from rfl]
  have hs0 : startsFTB (countsOf [0, 1, 65536, 2]) 0 = 0 := by
    rw [startsFTB_get _ 0 (by norm_num)]
    simp
  have hs1 : startsFTB (countsOf [0, 1, 65536, 2]) 1 = 1 := by
    rw [startsFTB_get _ 1 (by norm_num)]
    simp [hc0]
  have hs2 : startsFTB (countsOf [0, 1, 65536, 2]) 2 = 2 := by
    rw [startsFTB_get _ 2 (by norm_num)]
    rw [Finset.sum_range_succ, Finset.sum_range_one, hc0, hc1]
  rw [scatterLoop_cons_in _ _ _ _ _ _ (by norm_num),
    scatterLoop_cons_in _ _ _ _ _ _ (by norm_num),
    scatterLoop_cons_out _ _ _ _ _ _ (by norm_num),
    scatterLoop_cons_in _ _ _ _ _ _ (by norm_num),
    scatterLoop]
  rw [show List.range 4 = [0, 1, 2, 3] from rfl]
  simp only [show Int.toNat 0 = 0 from rfl, show Int.toNat 1 = 1 from rfl,
    show Int.toNat 2 = 2 from rfl]
  simp [aset, hs0, hs1, hs2]

/-- C2 (code bug).  Under `front-to-back`, `runSort` on the loaded four-point
buffer posts `depthIndex = [0, 1, 3, 0]`: the max-depth point (index 2, key
65536) is lost to the out-of-range bucket and the final slot keeps the
initial value 0, so the depth keys along the output order are
`[0, 1, 2, 0]` — not monotonically non-decreasing, contradicting the claimed
front-to-back ordering (and the back-to-front half of the claim fails
symmetrically). -/
theorem c2_front_to_back_not_monotone :
    (runSort c2st c1vp false).2.1 = [⟨[0, 1, 3, 0], c1vp, 4⟩]
    ∧ List.map (depthKey c1vp.mat c2ps) [0, 1, 3, 0] = [0, 1, 2, 0]
    ∧ ¬ List.Chain' (· ≤ ·) ([0, 1, 2, 0] : List ℤ) := by
  refine ⟨?_, ?_,
    by norm_num [List.chain'_cons, List.chain'_singleton]⟩
  · show (sortCore { c2st with lastVertexCount := 4 } c2ps c1vp).2.1 = _
    unfold sortCore
    simp only [c2st]
    rw [c2_keys]
    rw [show List.foldl omax none ([0, 1, 65536, 2] : List ℤ) = some 65536 by
      simp [omax]]
    rw [show List.foldl omin none ([0, 1, 65536, 2] : List ℤ) = some 0 by
      simp [omin]]
    rw [if_neg (by decide : ¬ (SortStrategy.frontToBack = SortStrategy.sNone))]
    rw [c2_buckets, c2_out]
  · have h0 : depthKey c1vp.mat c2ps 0 = 0 := by
      unfold depthKey jsTrunc toInt32
      norm_num [c1vp, c2ps]
    have h1 : depthKey c1vp.mat c2ps 1 = 1 := by
      unfold depthKey jsTrunc toInt32
      norm_num [c1vp, c2ps]
    have h3 : depthKey c1vp.mat c2ps 3 = 2 := by
      unfold depthKey jsTrunc toInt32
      norm_num [c1vp, c2ps]
    rw [List.map_cons, List.map_cons, List.map_cons, List.map_cons,
      List.map_nil, h0, h1, h3]

end Holo
